import Mathlib

/-!
Verification of the conversational session engine of hub-automacao-pro.

The JavaScript sources are shallowly embedded: SQLite tables become lists of
row structures, the in-process caches become association lists, and each
webhook event is processed as one atomic step (the process is single-threaded
and event-driven).  JS string truthiness is modelled explicitly; optional /
missing JS values become `Option`.  Timestamps (`CURRENT_TIMESTAMP`,
`new Date().toISOString()`) are modelled by a per-database logical clock that
strictly increases at every statement that reads the current time.
-/

namespace Hub

/-! ## JS value helpers -/

/-- JS truthiness of an optional string: `undefined`/`null` and `''` are falsy. -/
def truthy : Option String → Bool
  | none => false
  | some s => !(s == "")

/-- JS `a || b` on optional strings. -/
def jsOr (a b : Option String) : Option String := if truthy a then a else b

/-- JS `a || d` where the fallback is a plain string (e.g. `x || ''`). -/
def jsStrOr (a : Option String) (d : String) : String :=
  if truthy a then a.getD "" else d

/-- Embeds JS `s.replace(/\D/g, '')`: keep only ASCII digits. -/
def digitsOf (s : String) : String := ⟨s.data.filter Char.isDigit⟩

/-- Embeds JS `s.split(sep)[0]`: everything before the first separator. -/
def splitHead (s : String) (sep : Char) : String := ⟨s.data.takeWhile (· ≠ sep)⟩

/-- Embeds JS `String.prototype.replace` with a plain-string pattern:
only the first occurrence is replaced. -/
def replaceFirstCh (s pat rep : List Char) : List Char :=
  match s with
  | [] => []
  | c :: cs =>
      if pat.isPrefixOf (c :: cs) then rep ++ (c :: cs).drop pat.length
      else c :: replaceFirstCh cs pat rep

def replaceFirst (s pat rep : String) : String :=
  ⟨replaceFirstCh s.data pat.data rep.data⟩

/-- Does `sub` occur contiguously inside the character list? -/
def infixAt (sub : List Char) : List Char → Bool
  | [] => sub.isEmpty
  | c :: cs => sub.isPrefixOf (c :: cs) || infixAt sub cs

/-- Embeds JS `s.includes(sub)`. -/
def jsIncludes (s sub : String) : Bool := infixAt sub.data s.data

/-! ## Admin controller (src/agent-node/src/services/admin-controller.js)

`AdminController` keeps a single in-memory preferences record.  `config.adminNumber`
is `process.env.ADMIN_NUMBER || ''` (part_007), so an absent operator number is the
empty string. -/

structure AdminPrefs where
  responseMode : String := "auto"
  botPaused : Bool := false
  debugMode : Bool := false
deriving DecidableEq, Repr

/-- `AdminController.isAdmin`: both numbers are reduced to their digits and the
JS expression `adminPhone && cleanPhone === adminPhone` is used in boolean
contexts only, so it is embedded as a `Bool`. -/
def isAdmin (adminNumber phoneNumber : String) : Bool :=
  let cleanPhone := digitsOf phoneNumber
  let adminPhone := digitsOf adminNumber
  !(adminPhone == "") && cleanPhone == adminPhone

/-! ### parseCommand regular expressions

Each regex of `parseCommand` is alternation of literals, `\s*`, and optional
groups, anchored at the start (some also at the end).  The embedding computes
the set of possible remainders after matching a component, exactly the
backtracking semantics of the regexes. -/

/-- JS `\s` on the ASCII range (the commands only use ASCII whitespace). -/
def jsWhite (c : Char) : Bool :=
  c == ' ' || c == '\t' || c == '\n' || c == '\r' || c == '\x0b' || c == '\x0c'

/-- Embeds JS `s.toLowerCase()` character-wise. -/
def jsToLower (s : String) : String := ⟨s.data.map Char.toLower⟩

/-- Embeds JS `s.toUpperCase()` character-wise. -/
def jsToUpper (s : String) : String := ⟨s.data.map Char.toUpper⟩

/-- Embeds JS `String.prototype.trim` (ASCII whitespace). -/
def jsTrim (s : String) : String :=
  ⟨((s.data.dropWhile jsWhite).reverse.dropWhile jsWhite).reverse⟩

/-- Embeds JS `s.startsWith(w)`. -/
def jsStartsWith (s w : String) : Bool := w.data.isPrefixOf s.data

/-- Embeds JS `s.endsWith(w)`. -/
def jsEndsWith (s w : String) : Bool := w.data.isSuffixOf s.data

/-- Remainders after `\s*`: drop zero or more whitespace characters. -/
def wsRems : List Char → List (List Char)
  | [] => [[]]
  | c :: cs => (c :: cs) :: (if jsWhite c then wsRems cs else [])

/-- Remainders after an alternation of literal words. -/
def litAlts (ws : List String) (s : List Char) : List (List Char) :=
  ws.filterMap fun w => if w.data.isPrefixOf s then some (s.drop w.data.length) else none

/-- Remainders after an optional sub-pattern. -/
def optGroup (p : List Char → List (List Char)) (s : List Char) : List (List Char) :=
  s :: p s

/-- Some remainder is empty: the `$` anchor can be reached. -/
def hitsEnd (rs : List (List Char)) : Bool := rs.any List.isEmpty

/-- Some remainder exists: an unanchored-end regex matched. -/
def hitsAny (rs : List (List Char)) : Bool := !rs.isEmpty

/-- `/^(manda|envia|responde com|usa)\s*(audio|áudio|voz)/` etc. (audio mode). -/
def audioCmdTest (s : List Char) : Bool :=
  hitsAny (((litAlts ["manda", "envia", "responde com", "usa"] s).flatMap wsRems).flatMap
      (litAlts ["audio", "áudio", "voz"])) ||
  hitsAny (((litAlts ["só", "somente", "apenas"] s).flatMap wsRems).flatMap
      (litAlts ["audio", "áudio", "voz"])) ||
  hitsEnd (((litAlts ["audio"] s).flatMap wsRems).flatMap
      (optGroup (litAlts ["on", "ligado", "ativado"])))

/-- `/^(manda|envia|responde com|usa)\s*(texto|text)/` etc. (text mode). -/
def textCmdTest (s : List Char) : Bool :=
  hitsAny (((litAlts ["manda", "envia", "responde com", "usa"] s).flatMap wsRems).flatMap
      (litAlts ["texto", "text"])) ||
  hitsAny (((litAlts ["só", "somente", "apenas"] s).flatMap wsRems).flatMap
      (litAlts ["texto", "text"])) ||
  hitsEnd (((litAlts ["texto"] s).flatMap wsRems).flatMap
      (optGroup (litAlts ["on", "ligado", "ativado"])))

/-- `/^(modo\s*)?(auto|automatico|automático|normal)/` and
`/^(responde|resposta)\s*(auto|normal)/`. -/
def autoCmdTest (s : List Char) : Bool :=
  hitsAny ((optGroup (fun r => (litAlts ["modo"] r).flatMap wsRems) s).flatMap
      (litAlts ["auto", "automatico", "automático", "normal"])) ||
  hitsAny (((litAlts ["responde", "resposta"] s).flatMap wsRems).flatMap
      (litAlts ["auto", "normal"]))

/-- `/^(pausa|pause|para|desliga)\s*(o\s*)?(bot)?$/` or `/^\/pause$/`. -/
def pauseCmdTest (s : List Char) : Bool :=
  hitsEnd ((((litAlts ["pausa", "pause", "para", "desliga"] s).flatMap wsRems).flatMap
      (optGroup (fun r => (litAlts ["o"] r).flatMap wsRems))).flatMap
      (optGroup (litAlts ["bot"]))) ||
  s == "/pause".data

/-- `/^(continua|resume|liga|ativa)\s*(o\s*)?(bot)?$/` or `/^\/resume$/`. -/
def resumeCmdTest (s : List Char) : Bool :=
  hitsEnd ((((litAlts ["continua", "resume", "liga", "ativa"] s).flatMap wsRems).flatMap
      (optGroup (fun r => (litAlts ["o"] r).flatMap wsRems))).flatMap
      (optGroup (litAlts ["bot"]))) ||
  s == "/resume".data

/-- `/^(status|como\s*ta|como\s*está|estado)$/` or `/^\/status$/`. -/
def statusCmdTest (s : List Char) : Bool :=
  s == "status".data ||
  hitsEnd (((litAlts ["como"] s).flatMap wsRems).flatMap (litAlts ["ta"])) ||
  hitsEnd (((litAlts ["como"] s).flatMap wsRems).flatMap (litAlts ["está"])) ||
  s == "estado".data ||
  s == "/status".data

/-- `/^(ajuda|help|comandos|\?)$/` or `/^\/help$/`. -/
def helpCmdTest (s : List Char) : Bool :=
  s == "ajuda".data || s == "help".data || s == "comandos".data || s == "?".data ||
  s == "/help".data

inductive AdminCommand where
  | setResponseMode (mode : String)
  | pause
  | resume
  | status
  | help
deriving DecidableEq, Repr

/-- `AdminController.parseCommand`: the regex cases are tried in source order on
`text.toLowerCase().trim()`. -/
def parseCommand (text : String) : Option AdminCommand :=
  let s := (jsTrim (jsToLower text)).data
  if audioCmdTest s then some (.setResponseMode "audio")
  else if textCmdTest s then some (.setResponseMode "text")
  else if autoCmdTest s then some (.setResponseMode "auto")
  else if pauseCmdTest s then some .pause
  else if resumeCmdTest s then some .resume
  else if statusCmdTest s then some .status
  else if helpCmdTest s then some .help
  else none

/-- `AdminController.executeCommand`: mutates the preferences and returns the
human-readable confirmation text. -/
def executeCommand (prefs : AdminPrefs) : AdminCommand → AdminPrefs × String
  | .setResponseMode mode =>
      ({ prefs with responseMode := mode }, "Modo de resposta: " ++ jsToUpper mode)
  | .pause =>
      ({ prefs with botPaused := true }, "Bot pausado. Mande \"continua\" para reativar.")
  | .resume => ({ prefs with botPaused := false }, "Bot ativado!")
  | .status =>
      (prefs, "Status do Bot:\n- Modo resposta: " ++ prefs.responseMode ++
        "\n- Bot ativo: " ++ (if !prefs.botPaused then "Sim" else "Não (pausado)") ++
        "\n- Debug: " ++ (if prefs.debugMode then "On" else "Off"))
  | .help =>
      (prefs, "Comandos disponíveis:\n- \"audio\" ou \"manda audio\" - Responde só com áudio\n- \"texto\" - Responde só com texto\n- \"auto\" - Modo automático (padrão)\n- \"pausa\" - Pausa o bot\n- \"continua\" - Reativa o bot\n- \"status\" - Ver status")

/-- `AdminController.isBotPaused`. -/
def isBotPaused (prefs : AdminPrefs) : Bool := prefs.botPaused

/-- `AdminController.shouldRespondWithAudio`. -/
def shouldRespondWithAudio (prefs : AdminPrefs) (isIncomingAudio : Bool) : Bool :=
  if prefs.responseMode == "audio" then true
  else if prefs.responseMode == "text" then false
  else isIncomingAudio

/-! ## SQLite store (001_initial.sql and MemoryManager, part_009)

Tables are lists of rows in insertion order (SQLite scans in rowid order and
both tables use `INTEGER PRIMARY KEY AUTOINCREMENT`).  The logical clock
supplies `CURRENT_TIMESTAMP` / `new Date()` values; it strictly increases at
each timestamp-reading statement, modelling a monotonic time source (real
`CURRENT_TIMESTAMP` has one-second granularity; equal-timestamp ties are not
modelled). -/

/-- A row of `conversation_memory`. -/
structure MemoryRow where
  id : Nat
  whatsapp_id : String
  business_id : String
  summary_short : Option String := none
  summary_detailed : Option String := none
  facts : String := "\x7b\x7d"
  lead_stage : String := "new"
  lead_temperature : String := "cold"
  first_contact_at : Nat
  last_contact_at : Nat
  total_messages : Nat := 0
  created_at : Nat
  updated_at : Nat
deriving DecidableEq, Repr

/-- A row of `conversation_history`. -/
structure HistoryRow where
  id : Nat
  memory_id : Nat
  role : String
  content : String
  sentiment : Option String := none
  created_at : Nat
deriving DecidableEq, Repr

structure DB where
  memories : List MemoryRow := []
  history : List HistoryRow := []
  nextMemId : Nat := 1
  nextHistId : Nat := 1
  clock : Nat := 0
deriving DecidableEq, Repr

def DB.init : DB := {}

/-- `config.memory` (part_007). -/
def summaryThreshold : Nat := 20

def maxHistoryMessages : Nat := 50

/-- `MemoryManager.getOrCreateMemory`: SELECT by (whatsapp_id, business_id);
when absent, INSERT with the current time as first/last contact and re-SELECT
the inserted row. -/
def getOrCreateMemory (db : DB) (whatsappId businessId : String) : MemoryRow × DB :=
  match db.memories.find? (fun m => m.whatsapp_id == whatsappId && m.business_id == businessId) with
  | some m => (m, db)
  | none =>
      let now := db.clock
      let row : MemoryRow :=
        { id := db.nextMemId, whatsapp_id := whatsappId, business_id := businessId,
          first_contact_at := now, last_contact_at := now,
          created_at := now, updated_at := now }
      (row, { db with memories := db.memories ++ [row],
                      nextMemId := db.nextMemId + 1, clock := now + 1 })

/-- First statement of `MemoryManager.addToHistory`: the INSERT into
`conversation_history`. -/
def addHistStmt (db : DB) (memoryId : Nat) (role content : String)
    (sentiment : Option String) : DB :=
  let row : HistoryRow :=
    { id := db.nextHistId, memory_id := memoryId, role := role, content := content,
      sentiment := sentiment, created_at := db.clock }
  { db with history := db.history ++ [row], nextHistId := db.nextHistId + 1,
            clock := db.clock + 1 }

/-- Second statement of `MemoryManager.addToHistory`: the UPDATE of
`conversation_memory` (message count, last contact, updated_at). -/
def bumpMemStmt (db : DB) (memoryId : Nat) : DB :=
  { db with
    memories := db.memories.map fun m =>
      if m.id == memoryId then
        { m with total_messages := m.total_messages + 1,
                 last_contact_at := db.clock, updated_at := db.clock }
      else m,
    clock := db.clock + 1 }

/-- `MemoryManager.addToHistory`: the two statements are executed one after the
other; the source wraps them in no transaction. -/
def addToHistory (db : DB) (memoryId : Nat) (role content : String)
    (sentiment : Option String := none) : DB :=
  bumpMemStmt (addHistStmt db memoryId role content sentiment) memoryId

/-- `addToHistory` interrupted after `k` statements (`k = 0`: before the insert,
`k = 1`: between insert and counter update, `k ≥ 2`: run to completion).  This
models a failure at either inter-statement point of the non-transactional
sequence. -/
def addToHistoryUpTo (db : DB) (memoryId : Nat) (role content : String)
    (sentiment : Option String) : Nat → DB
  | 0 => db
  | 1 => addHistStmt db memoryId role content sentiment
  | _ + 2 => addToHistory db memoryId role content sentiment

/-- The rows of `conversation_history` belonging to one session, in rowid order. -/
def histFor (db : DB) (memoryId : Nat) : List HistoryRow :=
  db.history.filter (fun h => h.memory_id == memoryId)

/-- Insert a row into a list sorted by descending `created_at`
(the comparison SQLite's `ORDER BY created_at DESC` induces). -/
def insertDesc (h : HistoryRow) : List HistoryRow → List HistoryRow
  | [] => [h]
  | x :: xs => if x.created_at ≤ h.created_at then h :: x :: xs else x :: insertDesc h xs

/-- `ORDER BY created_at DESC` as an insertion sort. -/
def sortDesc (l : List HistoryRow) : List HistoryRow := l.foldr insertDesc []

/-- The projection `SELECT role, content, sentiment, created_at` of `getHistory`. -/
structure HistEntry where
  role : String
  content : String
  sentiment : Option String
  created_at : Nat
deriving DecidableEq, Repr

def HistoryRow.entry (h : HistoryRow) : HistEntry :=
  { role := h.role, content := h.content, sentiment := h.sentiment,
    created_at := h.created_at }

/-- `MemoryManager.getHistory`: most recent `limit` rows by `created_at`,
reversed into chronological order. -/
def getHistory (db : DB) (memoryId : Nat) (limit : Nat := maxHistoryMessages) :
    List HistEntry :=
  ((sortDesc (histFor db memoryId)).take limit).reverse.map HistoryRow.entry

/-- `MemoryManager.needsSummary`: compares the COUNT of *all* history rows of
the session with the fixed threshold. -/
def needsSummary (db : DB) (memoryId : Nat) : Bool :=
  summaryThreshold ≤ (histFor db memoryId).length

/-- The optional column values accepted by `MemoryManager.updateMemory`
(its `allowedFields` list). -/
structure MemUpdates where
  summary_short : Option String := none
  summary_detailed : Option String := none
  facts : Option String := none
  lead_stage : Option String := none
  lead_temperature : Option String := none
  last_contact_at : Option Nat := none
  total_messages : Option Nat := none
deriving Repr

def MemUpdates.isEmpty (u : MemUpdates) : Bool :=
  u.summary_short.isNone && u.summary_detailed.isNone && u.facts.isNone &&
  u.lead_stage.isNone && u.lead_temperature.isNone && u.last_contact_at.isNone &&
  u.total_messages.isNone

/-- `MemoryManager.updateMemory`: returns unchanged when no allowed field is
present, otherwise updates the given fields plus `updated_at`. -/
def updateMemory (db : DB) (memoryId : Nat) (u : MemUpdates) : DB :=
  if u.isEmpty then db
  else
    { db with
      memories := db.memories.map fun m =>
        if m.id == memoryId then
          { m with
            summary_short := u.summary_short.orElse fun _ => m.summary_short,
            summary_detailed := u.summary_detailed.orElse fun _ => m.summary_detailed,
            facts := u.facts.getD m.facts,
            lead_stage := u.lead_stage.getD m.lead_stage,
            lead_temperature := u.lead_temperature.getD m.lead_temperature,
            last_contact_at := u.last_contact_at.getD m.last_contact_at,
            total_messages := u.total_messages.getD m.total_messages,
            updated_at := db.clock }
        else m,
      clock := db.clock + 1 }

/-- The session row found for an id, if any. -/
def memRow (db : DB) (memoryId : Nat) : Option MemoryRow :=
  db.memories.find? (fun m => m.id == memoryId)

/-- The stored message counter of a session. -/
def totalOf (db : DB) (memoryId : Nat) : Nat :=
  ((memRow db memoryId).map MemoryRow.total_messages).getD 0

/-- At most one `conversation_memory` row per (whatsapp_id, business_id), the
`UNIQUE` constraint of 001_initial.sql. -/
def MemUnique (db : DB) : Prop :=
  ∀ wa bid,
    (db.memories.filter (fun m => m.whatsapp_id == wa && m.business_id == bid)).length ≤ 1

/-- A sequence of `appendTurn` calls, each `(sessionId, role, content)`. -/
def applyAppends (db : DB) (ops : List (Nat × String × String)) : DB :=
  ops.foldl (fun d op => addToHistory d op.1 op.2.1 op.2.2 none) db

/-- The session-level events visible to `needsSummarization`: turns appended by
the pipeline, and completed summarizations (`updateMemory` with the two summary
fields, as in `processBackgroundTasks`). -/
inductive SessEvent where
  | append (role content : String)
  | summarize (short detailed : String)
deriving DecidableEq, Repr

def applySessEvent (db : DB) (memoryId : Nat) : SessEvent → DB
  | .append role content => addToHistory db memoryId role content none
  | .summarize short detailed =>
      updateMemory db memoryId { summary_short := some short, summary_detailed := some detailed }

def applySessEvents (db : DB) (memoryId : Nat) (evs : List SessEvent) : DB :=
  evs.foldl (fun d e => applySessEvent d memoryId e) db

/-- Modelled from the spec: the count of unsummarized turns, "turns appended
since the last completed summarization" (the quantity C3 says
`needsSummarization` thresholds on). -/
def unsummarizedTurns (evs : List SessEvent) : Nat :=
  evs.foldl (fun n e => match e with | .append _ _ => n + 1 | .summarize _ _ => 0) 0

/-- The number of turns ever appended in an event sequence. -/
def countAppends (evs : List SessEvent) : Nat :=
  (evs.filter (fun e => match e with | .append _ _ => true | _ => false)).length

/-! ## LID resolver (part_010, first file: lid-resolver with PostgreSQL fallback)

The in-process `Map` cache and the SQLite `lid_mappings` table are association
structures; `INSERT OR REPLACE` on the `lid_jid` primary key deletes the
conflicting row and appends the new one.  The PostgreSQL fallback store and the
live contact directory are inputs of each resolution event (they are external
reads); the fire-and-forget PostgreSQL write does not affect local state. -/

/-- A gateway contact record.  Absent or empty JS fields are `none`
(`''` and `undefined` behave identically in every truthiness and equality
check the resolver performs). -/
structure Contact where
  cid : Option String := none
  remoteJid : Option String := none
  pushName : Option String := none
  profilePicUrl : Option String := none
  lid : Option String := none
  name : Option String := none
  notify : Option String := none
deriving DecidableEq, Repr

/-- A row of the SQLite `lid_mappings` table (`lid_jid` is the primary key). -/
structure LidRow where
  lid_jid : String
  phone : String
  push_name : String
  source : String
  updated_at : Nat
deriving DecidableEq, Repr

/-- A row of the PostgreSQL `lid_mappings` fallback store. -/
structure PgRow where
  lid_jid : String
  phone : String
  push_name : String
deriving DecidableEq, Repr

structure ResolverState where
  cache : List (String × String) := []
  table : List LidRow := []
  rclock : Nat := 0
deriving DecidableEq, Repr

def ResolverState.init : ResolverState := {}

def cacheHas (cache : List (String × String)) (k : String) : Bool :=
  (cache.find? (fun p => p.1 == k)).isSome

def cacheGet (cache : List (String × String)) (k : String) : Option String :=
  (cache.find? (fun p => p.1 == k)).map Prod.snd

/-- JS `Map.prototype.set`: overwrite in place, or append a new key. -/
def cacheSet (cache : List (String × String)) (k v : String) : List (String × String) :=
  if cacheHas cache k then cache.map (fun p => if p.1 == k then (k, v) else p)
  else cache ++ [(k, v)]

def tableGet (st : ResolverState) (k : String) : Option LidRow :=
  st.table.find? (fun r => r.lid_jid == k)

/-- `LIDResolver.saveMapping`: `INSERT OR REPLACE` into `lid_mappings`
(`pushName || ''` is stored) and `cache.set`. -/
def saveMapping (st : ResolverState) (lidJid phone : String) (pushName : Option String)
    (source : String) : ResolverState :=
  let row : LidRow :=
    { lid_jid := lidJid, phone := phone, push_name := pushName.getD "",
      source := source, updated_at := st.rclock }
  { cache := cacheSet st.cache lidJid phone,
    table := st.table.filter (fun r => !(r.lid_jid == lidJid)) ++ [row],
    rclock := st.rclock + 1 }

/-- `LIDResolver.sameProfilePic`: compare URLs with the query string stripped. -/
def sameProfilePic (url1 url2 : Option String) : Bool :=
  if !truthy url1 || !truthy url2 then false
  else splitHead (url1.getD "") '?' == splitHead (url2.getD "") '?'

/-- A directory entry that already carries a stable address. -/
def hasStableJid (c : Contact) : Bool :=
  match c.remoteJid with
  | some j => jsEndsWith j "@s.whatsapp.net"
  | none => false

/-- Strategy 1 of `LIDResolver.resolve`: first directory entry with a stable
address whose profile picture matches (ordered scan). -/
def avatarMatch (contacts : List Contact) (picUrl : Option String) : Option Contact :=
  if truthy picUrl then
    contacts.find? (fun c => hasStableJid c && sameProfilePic c.profilePicUrl picUrl)
  else none

/-- The filter of Strategy 2 of `LIDResolver.resolve`: stable-address entries
with the unresolved contact's pushName. -/
def pushNameCandidates (contacts : List Contact) (pn : Option String) : List Contact :=
  contacts.filter (fun c => hasStableJid c && c.pushName == pn)

/-- Strategy 2 of `LIDResolver.resolve`: accept only a unique pushName
candidate. -/
def displayNameMatch (contacts : List Contact) (pn : Option String) : Option String :=
  if truthy pn then
    match pushNameCandidates contacts pn with
    | [c] => some (splitHead (c.remoteJid.getD "") '@')
    | _ => none
  else none

/-- Modelled from the spec's words for C9: collect all directory entries that
carry a stable address and a display name identical to the unresolved
contact's; accept if and only if exactly one candidate exists. -/
def specDisplayNameMatch (contacts : List Contact) (pn : Option String) : Option String :=
  match contacts.filter (fun c => hasStableJid c && truthy c.pushName && c.pushName == pn) with
  | [c] => some (splitHead (c.remoteJid.getD "") '@')
  | _ => none

/-- `LIDResolver.resolve`: cache, SQLite table, PostgreSQL fallback, then the
two directory heuristics.  The third component records whether the live
contact directory was fetched. -/
def resolve (st : ResolverState) (pg : List PgRow) (contacts : List Contact)
    (lidJid : String) : Option String × ResolverState × Bool :=
  if cacheHas st.cache lidJid then (cacheGet st.cache lidJid, st, false)
  else
    let dbHit :=
      match tableGet st lidJid with
      | some r => if !(r.phone == "") then some r.phone else none
      | none => none
    match dbHit with
    | some phone => (some phone, { st with cache := cacheSet st.cache lidJid phone }, false)
    | none =>
        match pg.find? (fun r => r.lid_jid == lidJid) with
        | some r =>
            (some r.phone, saveMapping st lidJid r.phone (some r.push_name) "postgres_sync",
              false)
        | none =>
            if contacts.isEmpty then (none, st, true)
            else
              match contacts.find? (fun c => c.remoteJid == some lidJid) with
              | none => (none, st, true)
              | some lc =>
                  match avatarMatch contacts lc.profilePicUrl with
                  | some c =>
                      let phone := splitHead (c.remoteJid.getD "") '@'
                      (some phone, saveMapping st lidJid phone lc.pushName "profilePic", true)
                  | none =>
                      match displayNameMatch contacts lc.pushName with
                      | some phone =>
                          (some phone, saveMapping st lidJid phone lc.pushName "pushName", true)
                      | none => (none, st, true)

/-- `LIDResolver.learnFromContact`: harvest a (lid, phone, pushName) triple from
a contact-sync event and persist it with source `contacts_event`. -/
def learnFromContact (st : ResolverState) (c : Contact) :
    ResolverState × Option (String × String) :=
  let contactId := jsStrOr c.cid (jsStrOr c.remoteJid "")
  let lid := jsStrOr c.lid ""
  if jsIncludes contactId "@s.whatsapp.net" && jsIncludes lid "@lid" then
    let phone := splitHead contactId '@'
    let pushName := jsStrOr c.name (jsStrOr c.notify (jsStrOr c.pushName ""))
    (saveMapping st lid phone (some pushName) "contacts_event", some (lid, phone))
  else (st, none)

/-- The resolver-level events of C4: a resolution attempt (with the external
stores it observes) or a gateway contact-sync event. -/
inductive REvent where
  | resolveEv (pg : List PgRow) (dir : List Contact) (lidJid : String)
  | contactEv (c : Contact)

def applyREvent (st : ResolverState) : REvent → ResolverState
  | .resolveEv pg dir j => (resolve st pg dir j).2.1
  | .contactEv c => (learnFromContact st c).1

def applyREvents (st : ResolverState) (evs : List REvent) : ResolverState :=
  evs.foldl applyREvent st

/-! ## Voice synthesis fallback chain (elevenlabs.js, first file) -/

/-- The outcome of one provider's synthesis call, were it attempted. -/
inductive TTSOutcome where
  | ok (audio : String)
  | err
deriving DecidableEq, Repr

/-- The external synthesis environment: whether each provider is configured and
how its call would come out. -/
structure TTSEnv where
  elConfigured : Bool
  elResult : TTSOutcome
  openaiConfigured : Bool
  openaiResult : TTSOutcome
deriving DecidableEq, Repr

inductive TTSAttempt where
  | elevenlabs
  | openaiTTS
deriving DecidableEq, Repr

/-- `ElevenLabsClient.openAITTS`: throws when OpenAI is unconfigured or its
call fails. The second component is the trace of provider calls made. -/
def openAITTS (env : TTSEnv) : Except Unit String × List TTSAttempt :=
  if !env.openaiConfigured then (Except.error (), [])
  else
    match env.openaiResult with
    | .ok a => (Except.ok a, [.openaiTTS])
    | .err => (Except.error (), [.openaiTTS])

/-- `ElevenLabsClient.textToSpeech`: returns `null` when unconfigured, tries
ElevenLabs, and falls back to OpenAI TTS on failure. -/
def textToSpeech (env : TTSEnv) : Except Unit (Option String) × List TTSAttempt :=
  if !env.elConfigured then (Except.ok none, [])
  else
    match env.elResult with
    | .ok a => (Except.ok (some a), [.elevenlabs])
    | .err =>
        match openAITTS env with
        | (r, t) => (r.map some, .elevenlabs :: t)

/-- A message delivered to the contact. -/
inductive Delivery where
  | audioMsg (payload : String)
  | textMsg (body : String)
deriving DecidableEq, Repr

/-- The audio-reply delivery step of `handleAudioMessage` (part_009 lines
175-194): send the synthesized audio, or fall back to sending the reply text
when synthesis returned `null` or threw. -/
def sendAudioReply (env : TTSEnv) (response : String) : List Delivery × List TTSAttempt :=
  match textToSpeech env with
  | (Except.ok (some a), t) => ([.audioMsg a], t)
  | (Except.ok none, t) => ([.textMsg response], t)
  | (Except.error _, t) => ([.textMsg response], t)

/-! ## Webhook router and message pipeline (part_005 router, part_009 handlers)

One inbound webhook event is processed as one atomic step (the process is
single-threaded; the handler dispatched after the immediate 2xx acknowledgment
completes before the next event of interest here).  The nested gateway
envelope is flattened to the fields the router actually extracts; the AI model,
transcription and media download are environment oracles. -/

structure MsgKey where
  remoteJid : String
  fromMe : Bool
deriving DecidableEq, Repr

/-- The flattened webhook request body. -/
structure GatewayEvent where
  event : Option String := none
  bodyInstance : Option String := none
  sender : Option String := none
  instanceName : Option String := none
  key : Option MsgKey := none
  conversation : Option String := none
  extendedText : Option String := none
  imageCaption : Option String := none
  videoCaption : Option String := none
  messageType : Option String := none
  hasAudioMsg : Bool := false
  audioForwarded : Bool := false
  textForwarded : Bool := false
  pushName : Option String := none
  contacts : List Contact := []
deriving Repr

/-- The whole process state: admin preferences, the SQLite store, and the LID
resolver's cache/table. -/
structure ProcState where
  prefs : AdminPrefs := {}
  db : DB := {}
  res : ResolverState := {}
deriving DecidableEq, Repr

def ProcState.init : ProcState := {}

/-- Outbound gateway calls made while processing an event. -/
inductive Action where
  | setTyping (instanceName dest : String) (flag : Bool)
  | sendText (instanceName dest body : String)
  | sendAudio (instanceName dest payload : String)
deriving DecidableEq, Repr

/-- The immediate HTTP acknowledgment of the webhook. -/
inductive HttpResponse where
  | okJson (status : String)
  | badRequest
deriving DecidableEq, Repr

/-- External collaborators: reply generation, the admin chat model, voice
synthesis, media download and transcription. -/
structure PipeEnv where
  gen : String → String
  chat : String → String
  tts : TTSEnv
  media : Option String
  transcribe : String → Except Unit String

/-- `message-handler.handleMessage` (part_009 lines 13-105): typing on, memory
get-or-create, append the user turn, generate, append the assistant turn,
typing off, then deliver as audio (admin audio mode) or text. -/
def handleMessage (env : PipeEnv) (st : ProcState) (whatsappId text instanceName
    remoteJid : String) (isForwarded : Bool) : ProcState × List Action :=
  let messageText :=
    if isForwarded then "[Mensagem encaminhada pelo cliente]\n" ++ text else text
  let businessId := if instanceName == "" then "default" else instanceName
  let (memory, db1) := getOrCreateMemory st.db whatsappId businessId
  let db2 := addToHistory db1 memory.id "user" messageText none
  let response := env.gen messageText
  let db3 := addToHistory db2 memory.id "assistant" response
  let sendPart :=
    if shouldRespondWithAudio st.prefs false then
      (sendAudioReply env.tts response).1.map fun d =>
        match d with
        | .audioMsg a => Action.sendAudio instanceName remoteJid a
        | .textMsg b => Action.sendText instanceName remoteJid b
    else [Action.sendText instanceName remoteJid response]
  ({ st with db := db3 },
    [Action.setTyping instanceName remoteJid true,
     Action.setTyping instanceName remoteJid false] ++ sendPart)

/-- `message-handler.handleAudioMessage` (part_009 lines 111-211): download,
transcribe (apology short-circuits on failure), append turns, generate, and
deliver through the voice fallback chain. -/
def handleAudioMessage (env : PipeEnv) (st : ProcState) (whatsappId instanceName
    remoteJid : String) (isForwarded : Bool) : ProcState × List Action :=
  let typingOn := Action.setTyping instanceName remoteJid true
  if !truthy env.media then
    (st, [typingOn, Action.sendText instanceName remoteJid
      "Desculpe, não consegui processar seu áudio. Pode enviar novamente?"])
  else
    match env.transcribe (env.media.getD "") with
    | Except.error _ =>
        (st, [typingOn, Action.sendText instanceName remoteJid
          "Não consegui entender o áudio. Pode digitar sua mensagem?"])
    | Except.ok transcription =>
        let businessId := if instanceName == "" then "default" else instanceName
        let (memory, db1) := getOrCreateMemory st.db whatsappId businessId
        let messageText :=
          if isForwarded then
            "[Áudio encaminhado pelo cliente - outra pessoa falando]\n" ++ transcription
          else "[Áudio do cliente] " ++ transcription
        let db2 := addToHistory db1 memory.id "user" messageText none
        let response := env.gen transcription
        let db3 := addToHistory db2 memory.id "assistant" response
        let sendPart := (sendAudioReply env.tts response).1.map fun d =>
          match d with
          | .audioMsg a => Action.sendAudio instanceName remoteJid a
          | .textMsg b => Action.sendText instanceName remoteJid b
        ({ st with db := db3 },
          [typingOn, Action.setTyping instanceName remoteJid false] ++ sendPart)

/-- `message-handler.handleAdminMessage` (part_009 lines 286-318): the text is
sent to the chat model with the assistant system prompt and the model's answer
is sent back; no preference or command state is touched. -/
def handleAdminMessage (env : PipeEnv) (st : ProcState) (text instanceName
    remoteJid : String) : ProcState × List Action :=
  (st, [Action.sendText instanceName remoteJid (env.chat text)])

/-- `key.remoteJid` normalization of the router. -/
def whatsappIdOf (remoteJid : String) : String :=
  replaceFirst (replaceFirst (replaceFirst remoteJid "@s.whatsapp.net" "") "@g.us" "")
    "@lid" "@lid"

/-- The webhook router `router.post('/')` of part_005: one inbound gateway
event to (immediate HTTP response, next process state, outbound actions). -/
def webhookStep (env : PipeEnv) (adminNumber : String) (st : ProcState)
    (ev : GatewayEvent) : HttpResponse × ProcState × List Action :=
  let instanceName :=
    jsStrOr ev.bodyInstance (jsStrOr ev.sender (jsStrOr ev.instanceName "teste-instance"))
  let eventLower := jsToLower (jsStrOr ev.event "")
  if eventLower == "contacts.upsert" || eventLower == "contacts.update" ||
      eventLower == "contacts_upsert" || eventLower == "contacts_update" then
    (.okJson "contacts processed",
      { st with res := ev.contacts.foldl (fun r c => (learnFromContact r c).1) st.res }, [])
  else if !(eventLower == "messages.upsert" || eventLower == "messages_upsert") then
    (.okJson "ignored", st, [])
  else
    match ev.key with
    | none => (.badRequest, st, [])
    | some key =>
        if key.fromMe then
          let remotePhone := splitHead key.remoteJid '@'
          let isSelfChat := remotePhone == adminNumber
          let text := jsStrOr ev.conversation (jsStrOr ev.extendedText "")
          let isSlashCommand := !(text == "") && jsStartsWith text "/"
          if !(adminNumber == "") && isSelfChat && (isSlashCommand || !(text == "")) then
            let (st', acts) := handleAdminMessage env st text instanceName key.remoteJid
            (.okJson "processing admin", st', acts)
          else (.okJson "ignored", st, [])
        else
          let whatsappId := whatsappIdOf key.remoteJid
          if ev.messageType == some "audioMessage" || ev.hasAudioMsg then
            let (st', acts) :=
              handleAudioMessage env st whatsappId instanceName key.remoteJid
                ev.audioForwarded
            (.okJson "processing audio", st', acts)
          else
            let text := jsStrOr ev.conversation (jsStrOr ev.extendedText
              (jsStrOr ev.imageCaption (jsStrOr ev.videoCaption "")))
            if text == "" then (.okJson "ignored", st, [])
            else
              let adminStep :=
                if isAdmin adminNumber whatsappId then
                  match parseCommand text with
                  | some cmd =>
                      let (prefs', result) := executeCommand st.prefs cmd
                      if !(result == "") then
                        some (.okJson "admin command processed",
                          { st with prefs := prefs' },
                          [Action.sendText instanceName key.remoteJid result])
                      else none
                  | none => none
                else none
              match adminStep with
              | some out => out
              | none =>
                  if isBotPaused st.prefs && !isAdmin adminNumber whatsappId then
                    (.okJson "ignored", st, [])
                  else
                    let (st', acts) :=
                      handleMessage env st whatsappId text instanceName key.remoteJid
                        ev.textForwarded
                    (.okJson "processing", st', acts)

/-! ## Invariants and concrete instances used by the claims -/

/-- A store holding one freshly created session (id 1). -/
def dbOneSession : DB := (getOrCreateMemory DB.init "5511888888888" "default").2

/-- Claim C2 as stated: whichever inter-statement point a failure hits, the
store is left either untouched or with both effects applied. -/
def atomicAppend (db : DB) (memoryId : Nat) (role content : String) : Prop :=
  ∀ k, k ≤ 2 →
    addToHistoryUpTo db memoryId role content none k = db ∨
    addToHistoryUpTo db memoryId role content none k =
      addToHistory db memoryId role content none

/-- Twenty turns, then a completed summarization, then one more turn. -/
def evsSummarized : List SessEvent :=
  List.replicate 20 (SessEvent.append "user" "m") ++
    [SessEvent.summarize "s" "d", SessEvent.append "user" "m"]

def dbSummarized : DB :=
  applySessEvents (getOrCreateMemory DB.init "c" "default").2 1 evsSummarized

/-- The invariant maintained by every resolver event sequence: the mapping
table holds at most one row per handle, and every table row's handle is also
present in the in-process cache (so later resolutions for it always hit the
cache first). -/
def RInv (st : ResolverState) : Prop :=
  st.table.Pairwise (fun a b => a.lid_jid ≠ b.lid_jid) ∧
  ∀ r ∈ st.table, cacheHas st.cache r.lid_jid = true

/-- A contact-sync event carrying lid `999@lid` and address `5511777`. -/
def contactW : Contact :=
  { cid := some "5511777@s.whatsapp.net", lid := some "999@lid", name := some "Ana" }

/-- A directory in which the unresolved handle `7@lid` has the unique
display-name match `555@s.whatsapp.net`. -/
def dirW : List Contact :=
  [{ remoteJid := some "7@lid", pushName := some "Ana" },
   { remoteJid := some "555@s.whatsapp.net", pushName := some "Ana" }]

/-- Well-formedness maintained by the store: history rows carry strictly
increasing timestamps, all below the clock. -/
def HistWF (db : DB) : Prop :=
  db.history.Pairwise (fun a b => a.created_at < b.created_at) ∧
  ∀ h ∈ db.history, h.created_at < db.clock

/-- A deterministic external environment for the pipeline. -/
def pipeEnvC1 : PipeEnv :=
  { gen := fun m => "R:" ++ m, chat := fun m => "A:" ++ m,
    tts := { elConfigured := false, elResult := .err,
             openaiConfigured := false, openaiResult := .err },
    media := none, transcribe := fun _ => Except.error () }

/-- The operator's own number, as configured. -/
def adminNumberC1 : String := "5511999999999"

/-- The outgoing-echo event of the operator sending "/pause" in the self-chat. -/
def selfPauseEv : GatewayEvent :=
  { event := some "messages.upsert",
    key := some { remoteJid := "5511999999999@s.whatsapp.net", fromMe := true },
    conversation := some "/pause" }

/-- A subsequent inbound text from a non-operator contact. -/
def inboundAfterEv : GatewayEvent :=
  { event := some "messages.upsert",
    key := some { remoteJid := "5511888888888@s.whatsapp.net", fromMe := false },
    conversation := some "oi" }

/-- Process state after the self-chat "/pause" echo has been handled. -/
def stAfterPause : ProcState :=
  (webhookStep pipeEnvC1 adminNumberC1 ProcState.init selfPauseEv).2.1

/-! ## Claim C10 — operator identity check -/

/-- Claim C10 counterexample: the claim's unconfigured case is only "empty or
absent", but a configured operator number with no digit characters (here `"+"`)
also rejects every caller, including one whose digit sequence is identical
(both empty), falsifying "any formatting of the same digit sequence is
accepted" for such configured numbers. -/
theorem isAdmin_digitless_counterexample :
    ¬ (∀ cfg : String, cfg ≠ "" → ∀ x : String,
        (isAdmin cfg x = true ↔ digitsOf x = digitsOf cfg)) := by
  intro h
  have h2 := (h "+" (by decide) "abc").mpr (by decide)
  exact absurd h2 (by decide)

/-- Claim C10 (amended): when the configured operator number contains no digit
(in particular when it is empty or absent), `isAdmin` rejects every input;
when it contains at least one digit, a caller is accepted exactly when the two
digit sequences coincide, so the check is invariant under any formatting that
preserves the digits. -/
theorem isAdmin_digits_spec (cfg x y : String) :
    (digitsOf cfg = "" → isAdmin cfg x = false) ∧
    (digitsOf cfg ≠ "" → (isAdmin cfg x = true ↔ digitsOf x = digitsOf cfg)) ∧
    (digitsOf x = digitsOf y → isAdmin cfg x = isAdmin cfg y) := by
  refine ⟨fun h => ?_, fun h => ?_, fun h => ?_⟩ <;> simp [isAdmin, h]

theorem isAdmin_digits_spec_witness :
    isAdmin "+55 (11) 99999-9999" "5511999999999" = true := by
  have h := (isAdmin_digits_spec "+55 (11) 99999-9999" "5511999999999" "x").2.1
  exact (h (by decide)).mpr (by decide)

/-! ## Claim C2 — appendTurn is not transactional -/

/-- Claim C2 counterexample: `addToHistory` issues the history INSERT and the
counter UPDATE as two separate statements with no enclosing transaction, so
the state after only the first statement (interrupt point `k = 1`) is neither
the original store nor the all-applied store: a history row exists whose
counter increment is missing. -/
theorem addToHistory_not_atomic : ¬ atomicAppend dbOneSession 1 "user" "oi" := by
  intro h
  rcases h 1 (by norm_num) with h1 | h1
  · exact absurd h1 (by decide)
  · exact absurd h1 (by decide)

/-- Auxiliary: the counter UPDATE bumps exactly the found session row. -/
theorem find?_map_bump (l : List MemoryRow) (memoryId t : Nat) :
    ((l.map fun m => if m.id == memoryId then
        { m with total_messages := m.total_messages + 1, last_contact_at := t,
                 updated_at := t }
      else m).find? (fun m => m.id == memoryId))
    = (l.find? (fun m => m.id == memoryId)).map fun m =>
        { m with total_messages := m.total_messages + 1, last_contact_at := t,
                 updated_at := t } := by
  induction l with
  | nil => rfl
  | cons a l ih =>
      cases ha : (a.id == memoryId) with
      | true => simp [List.find?, ha]
      | false => simpa [List.find?, ha] using ih

/-- Claim C2 (amended): `appendTurn` runs as two sequential statements outside
any transaction.  An interruption before the insert leaves the store untouched;
an interruption between the two statements leaves the new history row in place
with the session counter not yet incremented; a completed call applies both
the row and the counter increment. -/
theorem addToHistory_two_statements (db : DB) (memoryId : Nat) (role content : String)
    (h : (memRow db memoryId).isSome) :
    addToHistoryUpTo db memoryId role content none 0 = db ∧
    (addToHistoryUpTo db memoryId role content none 1).history =
      db.history ++ [{ id := db.nextHistId, memory_id := memoryId, role := role,
                       content := content, sentiment := none, created_at := db.clock }] ∧
    (addToHistoryUpTo db memoryId role content none 1).memories = db.memories ∧
    totalOf (addToHistoryUpTo db memoryId role content none 2) memoryId
      = totalOf db memoryId + 1 ∧
    (addToHistoryUpTo db memoryId role content none 2).history =
      (addToHistoryUpTo db memoryId role content none 1).history := by
  refine ⟨rfl, rfl, rfl, ?_, rfl⟩
  unfold totalOf memRow addToHistoryUpTo addToHistory bumpMemStmt addHistStmt
  simp only [find?_map_bump]
  rcases hm : db.memories.find? (fun m => m.id == memoryId) with _ | m
  · rw [memRow] at h
    simp [hm] at h
  · simp [hm]

theorem addToHistory_two_statements_witness :
    totalOf (addToHistoryUpTo dbOneSession 1 "user" "oi" none 2) 1
      = totalOf dbOneSession 1 + 1 :=
  (addToHistory_two_statements dbOneSession 1 "user" "oi" (by decide)).2.2.2.1

/-! ## Claim C3 — the summarization threshold counts all turns ever -/

/-- Claim C3 counterexample: after 20 turns, a completed summarization and one
further turn, only one turn is unsummarized — below the threshold, so the claim
predicts `false` — yet `needsSummary` still answers `true`, because it compares
the total history row count (21) with the threshold and is never reset by a
summarization. -/
theorem needsSummary_counterexample :
    needsSummary dbSummarized 1 = true ∧ unsummarizedTurns evsSummarized = 1 ∧
    ¬ (needsSummary dbSummarized 1
        = decide (summaryThreshold ≤ unsummarizedTurns evsSummarized)) := by
  refine ⟨by decide, by decide, by decide⟩

theorem applySessEvents_cons (db : DB) (memoryId : Nat) (e : SessEvent)
    (evs : List SessEvent) :
    applySessEvents db memoryId (e :: evs)
      = applySessEvents (applySessEvent db memoryId e) memoryId evs := rfl

/-- Auxiliary: appends grow a session's history by one row; summarizations do
not touch it. -/
theorem histFor_applySessEvents (db : DB) (memoryId : Nat) (evs : List SessEvent) :
    (histFor (applySessEvents db memoryId evs) memoryId).length
      = (histFor db memoryId).length + countAppends evs := by
  induction evs generalizing db with
  | nil => simp [applySessEvents, countAppends]
  | cons e evs ih =>
      rw [applySessEvents_cons, ih]
      cases e with
      | append role content =>
          have hstep : (histFor (applySessEvent db memoryId (.append role content))
              memoryId).length = (histFor db memoryId).length + 1 := by
            simp [applySessEvent, addToHistory, bumpMemStmt, addHistStmt, histFor,
              List.filter_append]
          rw [hstep]
          simp [countAppends, List.filter]
          omega
      | summarize s d =>
          have hstep : histFor (applySessEvent db memoryId (.summarize s d)) memoryId
              = histFor db memoryId := by
            simp [applySessEvent, updateMemory, histFor, MemUpdates.isEmpty]
          rw [hstep]
          simp [countAppends, List.filter]

/-- Claim C3 (amended): for a fresh session, `needsSummarization` answers true
exactly when the *total* number of turns ever appended has reached the fixed
threshold of 20; completed summarizations do not reset the count, so the
predicate never returns to false once the 20th turn exists. -/
theorem needsSummary_total_threshold (db : DB) (memoryId : Nat) (evs : List SessEvent)
    (h : histFor db memoryId = []) :
    needsSummary (applySessEvents db memoryId evs) memoryId
      = decide (summaryThreshold ≤ countAppends evs) := by
  have hl := histFor_applySessEvents db memoryId evs
  rw [h] at hl
  simp only [List.length_nil, Nat.zero_add] at hl
  simp [needsSummary, hl]

theorem needsSummary_total_threshold_witness :
    needsSummary (applySessEvents DB.init 1 evsSummarized) 1
      = decide (summaryThreshold ≤ countAppends evsSummarized) :=
  needsSummary_total_threshold DB.init 1 evsSummarized (by decide)

/-! ## Claim C5 — voice synthesis fallback chain -/

/-- Claim C5: for every provider configuration and outcome, the contact
receives exactly one reply; any text ever delivered is exactly the generated
reply (no synthesis error text); when the primary provider is configured it is
attempted first, the secondary is attempted exactly on primary failure, and
when both attempts fail the same reply is delivered as plain text. -/
theorem tts_fallback_chain (env : TTSEnv) (response : String) :
    (sendAudioReply env response).1.length = 1 ∧
    (∀ b, Delivery.textMsg b ∈ (sendAudioReply env response).1 → b = response) ∧
    (env.elConfigured = true →
      (sendAudioReply env response).2.head? = some TTSAttempt.elevenlabs) ∧
    (∀ a, env.elConfigured = true → env.elResult = .ok a →
      (sendAudioReply env response).1 = [.audioMsg a] ∧
      (sendAudioReply env response).2 = [.elevenlabs]) ∧
    (env.elConfigured = true → env.elResult = .err → env.openaiConfigured = true →
      (sendAudioReply env response).2 = [.elevenlabs, .openaiTTS]) ∧
    (env.elConfigured = true → env.elResult = .err →
      (env.openaiConfigured = false ∨ env.openaiResult = .err) →
      (sendAudioReply env response).1 = [.textMsg response]) := by
  obtain ⟨ec, er, oc, og⟩ := env
  cases ec <;> cases oc <;> cases er <;> cases og <;>
    simp [sendAudioReply, textToSpeech, openAITTS, Except.map]

theorem tts_fallback_chain_witness :
    (sendAudioReply ⟨true, .err, true, .err⟩ "oi").1 = [.textMsg "oi"] :=
  (tts_fallback_chain ⟨true, .err, true, .err⟩ "oi").2.2.2.2.2 rfl rfl (Or.inr rfl)

/-! ## Claim C7 — getOrCreate idempotence and uniqueness -/

/-- Claim C7: a second `getOrCreate` with the same (address, tenant) returns
the same session id and leaves the store unchanged (no duplicate row), and the
at-most-one-session-per-(address, tenant) invariant is preserved. -/
theorem getOrCreate_idempotent (db : DB) (wa bid : String) (h : MemUnique db) :
    ((getOrCreateMemory (getOrCreateMemory db wa bid).2 wa bid).1).id
      = ((getOrCreateMemory db wa bid).1).id ∧
    (getOrCreateMemory (getOrCreateMemory db wa bid).2 wa bid).2
      = (getOrCreateMemory db wa bid).2 ∧
    MemUnique (getOrCreateMemory db wa bid).2 := by
  rcases hfind : db.memories.find? (fun m => m.whatsapp_id == wa && m.business_id == bid)
    with _ | m
  · have hnone : ∀ x ∈ db.memories,
        ¬((x.whatsapp_id == wa && x.business_id == bid) = true) :=
      List.find?_eq_none.mp hfind
    have hsecond : (getOrCreateMemory db wa bid).2.memories.find?
        (fun m => m.whatsapp_id == wa && m.business_id == bid) = some
          { id := db.nextMemId, whatsapp_id := wa, business_id := bid,
            first_contact_at := db.clock, last_contact_at := db.clock,
            created_at := db.clock, updated_at := db.clock } := by
      simp only [getOrCreateMemory, hfind]
      rw [List.find?_append, List.find?_eq_none.mpr hnone]
      simp [List.find?]
    constructor
    · simp [getOrCreateMemory, hfind, hsecond]
    constructor
    · simp [getOrCreateMemory, hfind, hsecond]
    · intro wa' bid'
      simp only [getOrCreateMemory, hfind, List.filter_append]
      by_cases hk : wa' = wa ∧ bid' = bid
      · obtain ⟨rfl, rfl⟩ := hk
        have : db.memories.filter
            (fun m => m.whatsapp_id == wa' && m.business_id == bid') = [] :=
          List.filter_eq_nil_iff.mpr hnone
        simp [this, List.filter]
      · have : (List.filter
            (fun m => m.whatsapp_id == wa' && m.business_id == bid')
            [{ id := db.nextMemId, whatsapp_id := wa, business_id := bid,
               first_contact_at := db.clock, last_contact_at := db.clock,
               created_at := db.clock, updated_at := db.clock : MemoryRow}]) = [] := by
          simp only [List.filter, List.filter_nil]
          have : ¬(wa == wa' && bid == bid') = true := by
            intro hb
            simp only [Bool.and_eq_true, beq_iff_eq] at hb
            exact hk ⟨hb.1.symm, hb.2.symm⟩
          simp only [this]
        rw [this, List.append_nil]
        exact h wa' bid'
  · constructor
    · simp [getOrCreateMemory, hfind]
    constructor
    · simp [getOrCreateMemory, hfind]
    · simpa [getOrCreateMemory, hfind] using h

theorem getOrCreate_idempotent_witness :
    ((getOrCreateMemory (getOrCreateMemory DB.init "c" "t").2 "c" "t").1).id
      = ((getOrCreateMemory DB.init "c" "t").1).id :=
  (getOrCreate_idempotent DB.init "c" "t"
    (fun wa bid => by simp [DB.init])).1

/-! ## Resolver cache and table lemmas -/

theorem cacheHas_eq_isSome (c : List (String × String)) (k : String) :
    cacheHas c k = (cacheGet c k).isSome := by
  simp [cacheHas, cacheGet]

theorem cacheGet_cons (p : String × String) (c : List (String × String)) (k : String) :
    cacheGet (p :: c) k = if p.1 == k then some p.2 else cacheGet c k := by
  by_cases h : (p.1 == k) = true
  · simp [cacheGet, List.find?, h]
  · simp [cacheGet, List.find?, eq_false_of_ne_true h]

theorem cacheHas_cons (p : String × String) (c : List (String × String)) (k : String) :
    cacheHas (p :: c) k = ((p.1 == k) || cacheHas c k) := by
  by_cases h : (p.1 == k) = true
  · simp [cacheHas, List.find?, h]
  · simp [cacheHas, List.find?, eq_false_of_ne_true h]

theorem cacheGet_append_one (c : List (String × String)) (k v k' : String) :
    cacheGet (c ++ [(k, v)]) k'
      = (cacheGet c k').or (if k == k' then some v else none) := by
  induction c with
  | nil => simp [cacheGet_cons, cacheGet]
  | cons p rest ih =>
      by_cases h : (p.1 == k') = true
      · simp [cacheGet_cons, h]
      · simp only [List.cons_append, cacheGet_cons, eq_false_of_ne_true h,
          Bool.false_eq_true, if_false, ih]

theorem cacheGet_mapset_self (c : List (String × String)) (k v : String) :
    cacheGet (c.map fun p => if p.1 == k then (k, v) else p) k
      = if cacheHas c k then some v else none := by
  induction c with
  | nil => simp [cacheGet, cacheHas]
  | cons p rest ih =>
      by_cases hp : p.1 = k
      · simp [cacheGet_cons, cacheHas_cons, hp]
      · simpa [cacheGet_cons, cacheHas_cons, hp] using ih

theorem cacheGet_mapset_other (c : List (String × String)) (k v k' : String)
    (h : k' ≠ k) :
    cacheGet (c.map fun p => if p.1 == k then (k, v) else p) k' = cacheGet c k' := by
  induction c with
  | nil => rfl
  | cons p rest ih =>
      by_cases hp : p.1 = k
      · simpa [cacheGet_cons, hp, Ne.symm h] using ih
      · by_cases hq : p.1 = k'
        · simp [cacheGet_cons, hp, hq, h]
        · simpa [cacheGet_cons, hp, hq] using ih

theorem cacheGet_set_self (c : List (String × String)) (k v : String) :
    cacheGet (cacheSet c k v) k = some v := by
  unfold cacheSet
  by_cases h : cacheHas c k
  · simp only [h, if_true, cacheGet_mapset_self, h]
  · have hf : cacheHas c k = false := eq_false_of_ne_true h
    have hnone : cacheGet c k = none := by
      rw [cacheHas_eq_isSome] at hf
      exact Option.not_isSome_iff_eq_none.mp (by simp [hf])
    simp [hf, cacheGet_append_one, hnone]

theorem cacheGet_set_other (c : List (String × String)) (k v k' : String) (h : k' ≠ k) :
    cacheGet (cacheSet c k v) k' = cacheGet c k' := by
  unfold cacheSet
  by_cases hh : cacheHas c k
  · simp only [hh, if_true, cacheGet_mapset_other c k v k' h]
  · have hkk : (k == k') = false := by simp [Ne.symm h]
    simp [eq_false_of_ne_true hh, cacheGet_append_one, hkk]

theorem cacheHas_set_mono (c : List (String × String)) (k v k' : String)
    (h : cacheHas c k' = true) : cacheHas (cacheSet c k v) k' = true := by
  by_cases hk : k' = k
  · subst hk
    rw [cacheHas_eq_isSome, cacheGet_set_self]
    rfl
  · rw [cacheHas_eq_isSome, cacheGet_set_other c k v k' hk, ← cacheHas_eq_isSome]
    exact h

theorem find?_filter_self_none (l : List LidRow) (k : String) :
    (l.filter fun r => !(r.lid_jid == k)).find? (fun r => r.lid_jid == k) = none := by
  rw [List.find?_eq_none]
  intro x hx
  have := (List.mem_filter.mp hx).2
  simp at this
  simp [this]

theorem find?_filter_keep (l : List LidRow) (k k' : String) (h : k' ≠ k) :
    (l.filter fun r => !(r.lid_jid == k)).find? (fun r => r.lid_jid == k')
      = l.find? (fun r => r.lid_jid == k') := by
  induction l with
  | nil => rfl
  | cons a l ih =>
      by_cases ha : (a.lid_jid == k') = true
      · have hak : (a.lid_jid == k) = false := by
          have : a.lid_jid = k' := by simpa using ha
          simp [this, h]
        simp [List.filter, hak, List.find?, ha]
      · have haf : (a.lid_jid == k') = false := eq_false_of_ne_true ha
        by_cases hak : (a.lid_jid == k) = true
        · simp only [List.filter, hak, Bool.not_true, List.find?, haf]
          simpa [List.find?, haf] using ih
        · simp only [List.filter, eq_false_of_ne_true hak, Bool.not_false, List.find?, haf]
          simpa [List.find?, haf] using ih

theorem tableGet_save_self (st : ResolverState) (k phone : String) (pn : Option String)
    (src : String) :
    tableGet (saveMapping st k phone pn src) k
      = some { lid_jid := k, phone := phone, push_name := pn.getD "",
               source := src, updated_at := st.rclock } := by
  simp [tableGet, saveMapping, List.find?_append, find?_filter_self_none, List.find?]

theorem tableGet_save_other (st : ResolverState) (k phone : String) (pn : Option String)
    (src : String) (k' : String) (h : k' ≠ k) :
    tableGet (saveMapping st k phone pn src) k' = tableGet st k' := by
  simp only [tableGet, saveMapping, List.find?_append, find?_filter_keep _ _ _ h]
  have : (k == k') = false := by simp [Ne.symm h]
  rcases hfind : st.table.find? (fun r => r.lid_jid == k') with _ | r <;>
    simp [List.find?, this]

/-! ## The resolver invariant of C4 -/

theorem RInv_init : RInv ResolverState.init := by
  constructor
  · exact List.Pairwise.nil
  · intro r hr
    simp [ResolverState.init] at hr

theorem saveMapping_RInv (st : ResolverState) (k phone : String) (pn : Option String)
    (src : String) (h : RInv st) : RInv (saveMapping st k phone pn src) := by
  obtain ⟨hpw, hcc⟩ := h
  constructor
  · rw [saveMapping]
    rw [List.pairwise_append]
    refine ⟨hpw.sublist (List.filter_sublist _), List.pairwise_singleton _ _, ?_⟩
    intro a ha b hb
    have h2 := (List.mem_filter.mp ha).2
    have hb' : b.lid_jid = k := by
      simp at hb
      simp [hb]
    simp at h2
    simpa [hb'] using h2
  · intro r hr
    rw [saveMapping] at hr
    rcases List.mem_append.mp hr with hr | hr
    · have := hcc r (List.mem_of_mem_filter hr)
      exact cacheHas_set_mono _ _ _ _ this
    · have hr' : r.lid_jid = k := by
        simp at hr
        simp [hr]
      rw [hr', cacheHas_eq_isSome]
      have : (saveMapping st k phone pn src).cache = cacheSet st.cache k phone := rfl
      rw [this, cacheGet_set_self]
      rfl

/-- Full characterization of one `resolve` call: a cache hit returns the
cached value without touching state or the directory; otherwise either only
the cache is back-filled from the table, or a single `saveMapping` upsert for
the queried handle happens, or the state is untouched on failure. -/
theorem resolve_spec (st : ResolverState) (pg : List PgRow) (dir : List Contact)
    (j : String) :
    (cacheHas st.cache j = true ∧
      resolve st pg dir j = (cacheGet st.cache j, st, false)) ∨
    (cacheHas st.cache j = false ∧
      ((∃ phone, resolve st pg dir j
          = (some phone, { st with cache := cacheSet st.cache j phone }, false)) ∨
       (∃ phone pn src b, resolve st pg dir j
          = (some phone, saveMapping st j phone pn src, b)) ∨
       (∃ b, resolve st pg dir j = (none, st, b)))) := by
  by_cases h : cacheHas st.cache j
  · left
    exact ⟨h, by simp [resolve, h]⟩
  · have hf : cacheHas st.cache j = false := eq_false_of_ne_true h
    right
    refine ⟨hf, ?_⟩
    simp only [resolve, hf, Bool.false_eq_true, if_false]
    rcases h1 : tableGet st j with _ | r
    · simp only [h1]
      rcases h2 : pg.find? (fun r => r.lid_jid == j) with _ | r2
      · simp only [h2]
        by_cases h3 : dir.isEmpty
        · simp only [h3, if_true]
          exact Or.inr (Or.inr ⟨true, rfl⟩)
        · have h3f : dir.isEmpty = false := eq_false_of_ne_true h3
          simp only [h3f, Bool.false_eq_true, if_false]
          rcases h4 : dir.find? (fun c => c.remoteJid == some j) with _ | lc
          · simp only [h4]
            exact Or.inr (Or.inr ⟨true, rfl⟩)
          · simp only [h4]
            rcases h5 : avatarMatch dir lc.profilePicUrl with _ | c
            · simp only [h5]
              rcases h6 : displayNameMatch dir lc.pushName with _ | ph
              · simp only [h6]
                exact Or.inr (Or.inr ⟨true, rfl⟩)
              · simp only [h6]
                exact Or.inr (Or.inl ⟨ph, lc.pushName, "pushName", true, rfl⟩)
            · simp only [h5]
              exact Or.inr (Or.inl ⟨_, lc.pushName, "profilePic", true, rfl⟩)
      · simp only [h2]
        exact Or.inr (Or.inl ⟨r2.phone, some r2.push_name, "postgres_sync", false, rfl⟩)
    · simp only [h1]
      by_cases h2 : (r.phone == "") = true
      · simp only [h2, Bool.not_true, Bool.false_eq_true, if_false]
        rcases h3 : pg.find? (fun r => r.lid_jid == j) with _ | r2
        · simp only [h3]
          by_cases h4 : dir.isEmpty
          · simp only [h4, if_true]
            exact Or.inr (Or.inr ⟨true, rfl⟩)
          · have h4f : dir.isEmpty = false := eq_false_of_ne_true h4
            simp only [h4f, Bool.false_eq_true, if_false]
            rcases h5 : dir.find? (fun c => c.remoteJid == some j) with _ | lc
            · simp only [h5]
              exact Or.inr (Or.inr ⟨true, rfl⟩)
            · simp only [h5]
              rcases h6 : avatarMatch dir lc.profilePicUrl with _ | c
              · simp only [h6]
                rcases h7 : displayNameMatch dir lc.pushName with _ | ph
                · simp only [h7]
                  exact Or.inr (Or.inr ⟨true, rfl⟩)
                · simp only [h7]
                  exact Or.inr (Or.inl ⟨ph, lc.pushName, "pushName", true, rfl⟩)
              · simp only [h6]
                exact Or.inr (Or.inl ⟨_, lc.pushName, "profilePic", true, rfl⟩)
        · simp only [h3]
          exact Or.inr (Or.inl ⟨r2.phone, some r2.push_name, "postgres_sync", false, rfl⟩)
      · have h2f : (r.phone == "") = false := eq_false_of_ne_true h2
        simp only [h2f, Bool.not_false, if_true]
        exact Or.inl ⟨r.phone, rfl⟩

/-- `learnFromContact` either ignores the event or performs one upsert with
source `contacts_event`. -/
theorem learn_state_cases (st : ResolverState) (c : Contact) :
    (learnFromContact st c).1 = st ∨
    ∃ l p pn, (learnFromContact st c).1 = saveMapping st l p pn "contacts_event" := by
  by_cases h : (jsIncludes (jsStrOr c.cid (jsStrOr c.remoteJid "")) "@s.whatsapp.net"
      && jsIncludes (jsStrOr c.lid "") "@lid") = true
  · right
    refine ⟨jsStrOr c.lid "", splitHead (jsStrOr c.cid (jsStrOr c.remoteJid "")) '@',
      some (jsStrOr c.name (jsStrOr c.notify (jsStrOr c.pushName ""))), ?_⟩
    simp only [learnFromContact, h, if_true]
  · left
    simp only [learnFromContact, eq_false_of_ne_true h, Bool.false_eq_true, if_false]

theorem applyREvent_RInv (st : ResolverState) (e : REvent) (h : RInv st) :
    RInv (applyREvent st e) := by
  cases e with
  | resolveEv pg dir j =>
      rcases resolve_spec st pg dir j with ⟨_, heq⟩ | ⟨_, hcase⟩
      · simp [applyREvent, heq, h]
      · rcases hcase with ⟨phone, heq⟩ | ⟨phone, pn, src, b, heq⟩ | ⟨b, heq⟩
        · simp only [applyREvent, heq]
          obtain ⟨hpw, hcc⟩ := h
          exact ⟨hpw, fun r hr => cacheHas_set_mono _ _ _ _ (hcc r hr)⟩
        · simp only [applyREvent, heq]
          exact saveMapping_RInv _ _ _ _ _ h
        · simp [applyREvent, heq, h]
  | contactEv c =>
      rcases learn_state_cases st c with heq | ⟨l, p, pn, heq⟩
      · simp [applyREvent, heq, h]
      · simp only [applyREvent, heq]
        exact saveMapping_RInv _ _ _ _ _ h

theorem applyREvents_RInv (st : ResolverState) (evs : List REvent) (h : RInv st) :
    RInv (applyREvents st evs) := by
  induction evs generalizing st with
  | nil => exact h
  | cons e evs ih => exact ih _ (applyREvent_RInv st e h)

/-- Under the invariant, a resolution event never changes an existing table
row (for any handle): resolutions for a mapped handle hit the cache, and
resolutions for other handles upsert only their own key. -/
theorem resolve_preserves_rows (st : ResolverState) (lid : String) (row : LidRow)
    (hinv : RInv st) (hrow : tableGet st lid = some row)
    (pg : List PgRow) (dir : List Contact) (j : String) :
    tableGet (applyREvent st (.resolveEv pg dir j)) lid = some row := by
  have hmem : row ∈ st.table := List.mem_of_find?_eq_some hrow
  have hlid : row.lid_jid = lid := by
    have := List.find?_some hrow
    simpa using this
  have hhas : cacheHas st.cache lid = true := by
    have := hinv.2 row hmem
    rwa [hlid] at this
  rcases resolve_spec st pg dir j with ⟨_, heq⟩ | ⟨hmiss, hcase⟩
  · simp [applyREvent, heq, hrow]
  · rcases hcase with ⟨phone, heq⟩ | ⟨phone, pn, src, b, heq⟩ | ⟨b, heq⟩
    · simpa [applyREvent, heq, tableGet] using hrow
    · have hne : lid ≠ j := by
        intro hcontra
        rw [hcontra] at hhas
        rw [hhas] at hmiss
        simp at hmiss
      simp only [applyREvent, heq]
      rw [tableGet_save_other _ _ _ _ _ _ hne]
      exact hrow
    · simp [applyREvent, heq, hrow]

/-! ## Claim C9 — the display-name heuristic -/

/-- Claim C9: the display-name heuristic accepts a candidate if and only if
exactly one directory entry carries a stable address and a display name
identical to the unresolved contact's, returning that unique entry's address;
zero or several such entries (or a contact with no display name) yield no
result.  `specDisplayNameMatch` is the claim's wording; `displayNameMatch` is
the code's Strategy 2. -/
theorem displayName_unique_iff (contacts : List Contact) (pn : Option String) :
    displayNameMatch contacts pn = specDisplayNameMatch contacts pn := by
  by_cases ht : truthy pn = true
  · have hfil : contacts.filter (fun c => hasStableJid c && c.pushName == pn)
        = contacts.filter
            (fun c => hasStableJid c && truthy c.pushName && c.pushName == pn) := by
      apply List.filter_congr
      intro c _
      by_cases hc : c.pushName = pn
      · rw [hc]
        simp [ht]
      · have hb : (c.pushName == pn) = false := by simp [hc]
        simp [hb]
    simp only [displayNameMatch, ht, if_true, specDisplayNameMatch,
      pushNameCandidates, hfil]
  · have hf : truthy pn = false := eq_false_of_ne_true ht
    have hfil : contacts.filter
        (fun c => hasStableJid c && truthy c.pushName && c.pushName == pn) = [] := by
      rw [List.filter_eq_nil_iff]
      intro c _
      by_cases hc : c.pushName = pn
      · simp [hc, hf]
      · simp [hc]
    simp [displayNameMatch, hf, specDisplayNameMatch, hfil]

/-! ## Claim C4 — mapping uniqueness and contact-event precedence -/

/-- Claim C4: over every sequence of resolution and contact-sync events, the
mapping table keeps at most one row per handle (re-resolution overwrites via
upsert, never duplicates); a row recorded from a contact event is never
overwritten by a later resolution (whose heuristics only run when no mapping
exists), while a contact-sync event does overwrite whatever row exists with a
`contacts_event` mapping. -/
theorem lid_mapping_confidence (evs : List REvent) :
    (applyREvents ResolverState.init evs).table.Pairwise
        (fun a b => a.lid_jid ≠ b.lid_jid) ∧
    (∀ lid row, tableGet (applyREvents ResolverState.init evs) lid = some row →
      row.source = "contacts_event" →
      ∀ pg dir j,
        tableGet (applyREvent (applyREvents ResolverState.init evs)
          (.resolveEv pg dir j)) lid = some row) ∧
    (∀ c st' lid phone,
      learnFromContact (applyREvents ResolverState.init evs) c = (st', some (lid, phone)) →
      ∃ row, tableGet st' lid = some row ∧ row.phone = phone ∧
        row.source = "contacts_event") := by
  have hinv := applyREvents_RInv ResolverState.init evs RInv_init
  refine ⟨hinv.1, ?_, ?_⟩
  · intro lid row hrow hsrc pg dir j
    exact resolve_preserves_rows _ lid row hinv hrow pg dir j
  · intro c st' lid phone hlearn
    by_cases h : (jsIncludes (jsStrOr c.cid (jsStrOr c.remoteJid "")) "@s.whatsapp.net"
        && jsIncludes (jsStrOr c.lid "") "@lid") = true
    · simp only [learnFromContact, h, if_true] at hlearn
      injection hlearn with h1 h2
      injection h2 with h2
      injection h2 with h3 h4
      subst h3
      subst h4
      rw [← h1, tableGet_save_self]
      exact ⟨_, rfl, rfl, rfl⟩
    · simp only [learnFromContact, eq_false_of_ne_true h, Bool.false_eq_true,
        if_false] at hlearn
      injection hlearn with h1 h2
      exact Option.noConfusion h2

theorem lid_mapping_confidence_witness :
    tableGet (applyREvent (applyREvents ResolverState.init [REvent.contactEv contactW])
        (.resolveEv [] [] "999@lid")) "999@lid"
      = some { lid_jid := "999@lid", phone := "5511777", push_name := "Ana",
               source := "contacts_event", updated_at := 0 } :=
  (lid_mapping_confidence [REvent.contactEv contactW]).2.1 "999@lid"
    { lid_jid := "999@lid", phone := "5511777", push_name := "Ana",
      source := "contacts_event", updated_at := 0 }
    (by decide) (by decide) [] [] "999@lid"

/-! ## Claim C8 — monotone caching of resolution -/

/-- A successful resolution leaves the resolved phone in the in-process cache
under the queried handle. -/
theorem resolve_success_cacheGet (st : ResolverState) (pg : List PgRow)
    (dir : List Contact) (j phone : String) (st₁ : ResolverState) (f : Bool)
    (h : resolve st pg dir j = (some phone, st₁, f)) :
    cacheGet st₁.cache j = some phone := by
  rcases resolve_spec st pg dir j with ⟨hhit, heq⟩ | ⟨hmiss, hcase⟩
  · rw [heq] at h
    injection h with h1 h2
    injection h2 with h2 h3
    rw [← h2]
    exact h1
  · rcases hcase with ⟨ph, heq⟩ | ⟨ph, pn, src, b, heq⟩ | ⟨b, heq⟩
    · rw [heq] at h
      injection h with h1 h2
      injection h2 with h2 h3
      injection h1 with h1
      rw [← h2]
      have : ({ st with cache := cacheSet st.cache j ph } : ResolverState).cache
          = cacheSet st.cache j ph := rfl
      rw [this, cacheGet_set_self, h1]
    · rw [heq] at h
      injection h with h1 h2
      injection h2 with h2 h3
      injection h1 with h1
      rw [← h2]
      have : (saveMapping st j ph pn src).cache = cacheSet st.cache j ph := rfl
      rw [this, cacheGet_set_self, h1]
    · rw [heq] at h
      injection h with h1 h2
      exact Option.noConfusion h1

/-- Resolution events never disturb another handle's cached entry. -/
theorem resolveEv_preserves_cacheGet (st : ResolverState) (j phone : String)
    (h : cacheGet st.cache j = some phone) (pg : List PgRow) (dir : List Contact)
    (j' : String) :
    cacheGet (applyREvent st (.resolveEv pg dir j')).cache j = some phone := by
  rcases resolve_spec st pg dir j' with ⟨hhit, heq⟩ | ⟨hmiss, hcase⟩
  · simp [applyREvent, heq, h]
  · by_cases hj : j = j'
    · subst hj
      rw [cacheHas_eq_isSome, h] at hmiss
      simp at hmiss
    · rcases hcase with ⟨ph, heq⟩ | ⟨ph, pn, src, b, heq⟩ | ⟨b, heq⟩
      · simp only [applyREvent, heq]
        rw [cacheGet_set_other _ _ _ _ hj]
        exact h
      · simp only [applyREvent, heq]
        rw [show (saveMapping st j' ph pn src).cache = cacheSet st.cache j' ph from rfl]
        rw [cacheGet_set_other _ _ _ _ hj]
        exact h
      · simp [applyREvent, heq, h]

/-- Claim C8: once `resolve` has succeeded for a handle, every later call for
that handle — after any further resolution events, with any (even empty or
unavailable) directory — returns the same previously resolved address from the
cache, with no state change and no directory fetch. -/
theorem resolve_monotone_cached (st : ResolverState) (pg : List PgRow)
    (dir : List Contact) (j phone : String) (st₁ : ResolverState) (f : Bool)
    (h : resolve st pg dir j = (some phone, st₁, f))
    (later : List (List PgRow × List Contact × String)) (pg' : List PgRow)
    (dir' : List Contact) :
    resolve (applyREvents st₁ (later.map fun e => .resolveEv e.1 e.2.1 e.2.2)) pg' dir' j
      = (some phone,
         applyREvents st₁ (later.map fun e => .resolveEv e.1 e.2.1 e.2.2), false) := by
  have hstep : ∀ (st' : ResolverState), cacheGet st'.cache j = some phone →
      ∀ (l : List (List PgRow × List Contact × String)),
      cacheGet (applyREvents st' (l.map fun e => .resolveEv e.1 e.2.1 e.2.2)).cache j
        = some phone := by
    intro st' h0 l
    induction l generalizing st' with
    | nil => exact h0
    | cons e l ih =>
        exact ih _ (resolveEv_preserves_cacheGet st' j phone h0 e.1 e.2.1 e.2.2)
  have hfinal := hstep st₁ (resolve_success_cacheGet st pg dir j phone st₁ f h) later
  have hhas : cacheHas
      (applyREvents st₁ (later.map fun e => .resolveEv e.1 e.2.1 e.2.2)).cache j
        = true := by
    rw [cacheHas_eq_isSome, hfinal]
    rfl
  simp [resolve, hhas, hfinal]

theorem resolve_monotone_cached_witness :
    resolve (applyREvents (resolve ResolverState.init [] dirW "7@lid").2.1
        ([([], [], "8@lid")].map fun e => REvent.resolveEv e.1 e.2.1 e.2.2)) [] [] "7@lid"
      = (some "555",
         applyREvents (resolve ResolverState.init [] dirW "7@lid").2.1
           ([([], [], "8@lid")].map fun e => REvent.resolveEv e.1 e.2.1 e.2.2), false) :=
  resolve_monotone_cached ResolverState.init [] dirW "7@lid" "555"
    (resolve ResolverState.init [] dirW "7@lid").2.1
    (resolve ResolverState.init [] dirW "7@lid").2.2 (by decide)
    [([], [], "8@lid")] [] []

/-! ## Claim C6 — recentHistory returns the last N turns in order -/

theorem insertDesc_all_lt (h : HistoryRow) (l : List HistoryRow)
    (hall : ∀ x ∈ l, h.created_at < x.created_at) : insertDesc h l = l ++ [h] := by
  induction l with
  | nil => rfl
  | cons x xs ih =>
      have hx := hall x (List.mem_cons_self x xs)
      have hnle : ¬(x.created_at ≤ h.created_at) := by omega
      simp only [insertDesc, if_neg hnle, List.cons_append]
      rw [ih fun y hy => hall y (List.mem_cons_of_mem x hy)]

/-- `ORDER BY created_at DESC` on rows inserted with strictly increasing
timestamps is exactly the reversed insertion order. -/
theorem sortDesc_of_strictAsc (l : List HistoryRow)
    (hl : l.Pairwise (fun a b => a.created_at < b.created_at)) :
    sortDesc l = l.reverse := by
  induction l with
  | nil => rfl
  | cons a l ih =>
      rw [List.pairwise_cons] at hl
      have hstep : sortDesc (a :: l) = insertDesc a (sortDesc l) := rfl
      rw [hstep, ih hl.2, insertDesc_all_lt a l.reverse
        (fun x hx => hl.1 x (List.mem_reverse.mp hx))]
      simp

theorem addToHistory_HistWF (db : DB) (mid : Nat) (role content : String)
    (h : HistWF db) : HistWF (addToHistory db mid role content none) := by
  obtain ⟨hpw, hcl⟩ := h
  constructor
  · simp only [addToHistory, bumpMemStmt, addHistStmt]
    rw [List.pairwise_append]
    refine ⟨hpw, List.pairwise_singleton _ _, ?_⟩
    intro a ha b hb
    simp only [List.mem_singleton] at hb
    rw [hb]
    exact hcl a ha
  · intro x hx
    simp only [addToHistory, bumpMemStmt, addHistStmt] at hx ⊢
    rcases List.mem_append.mp hx with hx | hx
    · have := hcl x hx
      omega
    · simp only [List.mem_singleton] at hx
      rw [hx]
      show db.clock < db.clock + 1 + 1
      omega

theorem applyAppends_HistWF (db : DB) (ops : List (Nat × String × String))
    (h : HistWF db) : HistWF (applyAppends db ops) := by
  induction ops generalizing db with
  | nil => exact h
  | cons op ops ih =>
      exact ih _ (addToHistory_HistWF db op.1 op.2.1 op.2.2 h)

/-- Appending turns appends, in order, one row per call to the session's
filtered history (projected to role and content). -/
theorem histFor_applyAppends (db : DB) (ops : List (Nat × String × String))
    (mid : Nat) :
    (histFor (applyAppends db ops) mid).map (fun h => (h.role, h.content))
      = (histFor db mid).map (fun h => (h.role, h.content))
        ++ (ops.filter (fun op => op.1 == mid)).map (fun op => (op.2.1, op.2.2)) := by
  induction ops generalizing db with
  | nil => simp [applyAppends]
  | cons op ops ih =>
      rw [show applyAppends db (op :: ops)
          = applyAppends (addToHistory db op.1 op.2.1 op.2.2 none) ops from rfl, ih]
      have hstep : histFor (addToHistory db op.1 op.2.1 op.2.2 none) mid
          = histFor db mid ++
            (if (op.1 == mid) = true then
              [{ id := db.nextHistId, memory_id := op.1, role := op.2.1,
                 content := op.2.2, sentiment := none, created_at := db.clock }]
             else []) := by
        simp only [addToHistory, bumpMemStmt, addHistStmt, histFor, List.filter_append]
        congr 1
        by_cases hm : (op.1 == mid) = true
        · simp [List.filter, hm]
        · simp [List.filter, eq_false_of_ne_true hm]
      rw [hstep]
      by_cases hm : (op.1 == mid) = true
      · simp [hm, List.filter_cons, List.map_append]
      · simp [eq_false_of_ne_true hm, List.filter_cons]

/-- Claim C6: after any sequence of `appendTurn` calls (across any sessions),
`recentHistory(session, N)` returns exactly the last N turns appended to that
session — all of them when fewer than N exist — in chronological order,
oldest first. -/
theorem recentHistory_last_n (db : DB) (ops : List (Nat × String × String))
    (memoryId n : Nat) (hwf : HistWF db) (hempty : histFor db memoryId = []) :
    (getHistory (applyAppends db ops) memoryId n).map (fun e => (e.role, e.content))
      = ((ops.filter (fun op => op.1 == memoryId)).map
          (fun op => (op.2.1, op.2.2))).drop
          ((ops.filter (fun op => op.1 == memoryId)).length - n) := by
  have hwf' := applyAppends_HistWF db ops hwf
  have hpw : (histFor (applyAppends db ops) memoryId).Pairwise
      (fun a b => a.created_at < b.created_at) :=
    List.Pairwise.sublist (List.filter_sublist _) hwf'.1
  have hproj := histFor_applyAppends db ops memoryId
  rw [hempty] at hproj
  simp only [List.map_nil, List.nil_append] at hproj
  have hlen : (histFor (applyAppends db ops) memoryId).length
      = ((ops.filter (fun op => op.1 == memoryId)).map
          (fun op => (op.2.1, op.2.2))).length := by
    rw [← hproj, List.length_map]
  rw [getHistory, sortDesc_of_strictAsc _ hpw, List.take_reverse,
    List.reverse_reverse, List.map_map]
  have hcomp : ((fun e : HistEntry => (e.role, e.content)) ∘ HistoryRow.entry)
      = fun h : HistoryRow => (h.role, h.content) := rfl
  rw [hcomp, List.map_drop, hproj, hlen, List.length_map]

theorem recentHistory_last_n_witness :
    (getHistory (applyAppends DB.init [(1, "user", "a"), (1, "assistant", "b")]) 1 1).map
        (fun e => (e.role, e.content))
      = (([(1, "user", "a"), (1, "assistant", "b")].filter
          (fun op => op.1 == 1)).map (fun op => (op.2.1, op.2.2))).drop
          (([(1, "user", "a"), (1, "assistant", "b")].filter
            (fun op => op.1 == 1)).length - 1) :=
  recentHistory_last_n DB.init [(1, "user", "a"), (1, "assistant", "b")] 1 1
    ⟨List.Pairwise.nil, by intro h hh; exact absurd hh (List.not_mem_nil h)⟩ rfl

/-! ## Claim C1 — the self-chat "/pause" does not pause the bot -/

/-- Claim C1 evaluated on the code: the self-chat "/pause" is acknowledged and
routed to `handleAdminMessage`, which only sends a chat-model reply and never
executes the command, so the paused flag stays `false`; the next inbound
message from a non-operator contact is fully processed and a generated reply
is delivered — contradicting the claim that the flag becomes `true` and no
reply is produced.  (`parseCommand`/`executeCommand` would implement the pause,
but the self-chat branch never calls them.) -/
theorem selfchat_pause_leaves_bot_running :
    (webhookStep pipeEnvC1 adminNumberC1 ProcState.init selfPauseEv).1
      = .okJson "processing admin" ∧
    stAfterPause.prefs.botPaused = false ∧
    isBotPaused stAfterPause.prefs = false ∧
    (webhookStep pipeEnvC1 adminNumberC1 stAfterPause inboundAfterEv).1
      = .okJson "processing" ∧
    Action.sendText "teste-instance" "5511888888888@s.whatsapp.net" "R:oi"
      ∈ (webhookStep pipeEnvC1 adminNumberC1 stAfterPause inboundAfterEv).2.2 ∧
    parseCommand "/pause" = some AdminCommand.pause ∧
    (executeCommand stAfterPause.prefs AdminCommand.pause).1.botPaused = true := by
  refine ⟨by decide, by decide, by decide, by decide, by decide, by decide, by decide⟩

end Hub
